import Mathlib

/-!
# Verification of the emdiro command-chain engine

A shallow embedding of the emdiro screen-automation tool (`src/main.rs`,
`src/command.rs`, `src/key_codes.rs`, `src/ydotool.rs`, `src/grim.rs`,
`src/slurp.rs`) together with proofs about its data model, serialization
format, and execution semantics.

External collaborators (the `grim` screenshot tool, the `ydotool` input
injector, the `bash` shell, the `typst` compiler, the PNG codec of the
`image` crate) are modelled as explicit parameters: a collaborator's
response is an argument of the embedded function, and the embedding
reproduces the Rust control flow around those responses.
-/

namespace Emdiro

/-! ## Geometry (`src/main.rs`) -/

/-- A position on the screen (`struct Position` in `main.rs`): `x` and `y`
are `u32` screen coordinates, modelled as `Nat`. -/
structure Position where
  x : Nat
  y : Nat
deriving DecidableEq, Repr

/-- A rectangle with integer coordinates (`struct Rect` in `main.rs`). -/
structure Rect where
  x : Nat
  y : Nat
  width : Nat
  height : Nat
deriving DecidableEq, Repr

/-- Returns the origin of the rectangle (`Rect::origin`). -/
def Rect.origin (r : Rect) : Position :=
  { x := r.x, y := r.y }

/-- Computes the center of the rectangle (`Rect::center`); `/` is `u32`
division, i.e. floor division on `Nat`. -/
def Rect.center (r : Rect) : Position :=
  { x := r.x + r.width / 2, y := r.y + r.height / 2 }

/-! ## Durations

`std::time::Duration` as serialized by serde: a seconds part (`u64`) and a
nanoseconds part (`u32`, below `10^9` for every value the Rust type can
hold). -/

/-- A `std::time::Duration` value: whole seconds plus nanoseconds. -/
structure Duration where
  secs : Nat
  nanos : Nat
deriving DecidableEq, Repr

/-! ## Images

`image::RgbImage` is an `ImageBuffer` holding its dimensions and a flat
byte buffer; its `PartialEq` compares dimensions and the raw buffer, so
equality is structural equality here. -/

/-- An `image::RgbImage`: dimensions plus the raw pixel byte buffer. -/
structure RgbImage where
  width : Nat
  height : Nat
  pixels : List Nat
deriving DecidableEq, Repr

/-! ## Key codes (`src/key_codes.rs`)

`KeyCodes` stores a `BTreeMap<String, u32>`; iterating a `BTreeMap` visits
the entries in strictly increasing key order, so the map is embedded as an
association list whose keys are strictly sorted (`List.Pairwise` below). -/

/-- Lookup the name of a keycode (`KeyCodes::reverse_lookup`): walk the
entries in map order and return the first name whose code matches. -/
def reverse_lookup (codes : List (String × Nat)) (keycode : Nat) : Option String :=
  match codes with
  | [] => none
  | (name, code) :: rest => if code = keycode then some name else reverse_lookup rest keycode

/-! ## Input injection (`src/ydotool.rs`) -/

/-- The key events issued by `ydotool::press_keys`: one `{key}:1` (press)
argument per key in the listed order, then one `{key}:0` (release)
argument per key in reversed order.  A pair `(k, true)` stands for the
press argument `k:1` and `(k, false)` for the release argument `k:0`. -/
def press_keys (keys : List Nat) : List (Nat × Bool) :=
  keys.map (fun k => (k, true)) ++ keys.reverse.map (fun k => (k, false))

/-! ## Claims about geometry, key presses and reverse lookup -/

/-- Extracting the press events from the press half of the trace yields the
key list itself. -/
lemma filterMap_press_of_press (keys : List Nat) :
    (keys.map fun k => (k, true)).filterMap
      (fun p : Nat × Bool => if p.2 then some p.1 else none) = keys := by
  induction keys with
  | nil => rfl
  | cons k ks ih => simp [ih]

/-- The press half of the trace contains no release events. -/
lemma filterMap_release_of_press (keys : List Nat) :
    (keys.map fun k => (k, true)).filterMap
      (fun p : Nat × Bool => if p.2 then none else some p.1) = [] := by
  induction keys with
  | nil => rfl
  | cons k ks ih => simp [ih]

/-- Extracting the release events from the release half of the trace yields
the listed keys. -/
lemma filterMap_release_of_release (keys : List Nat) :
    (keys.map fun k => (k, false)).filterMap
      (fun p : Nat × Bool => if p.2 then none else some p.1) = keys := by
  induction keys with
  | nil => rfl
  | cons k ks ih => simp [ih]

/-- The release half of the trace contains no press events. -/
lemma filterMap_press_of_release (keys : List Nat) :
    (keys.map fun k => (k, false)).filterMap
      (fun p : Nat × Bool => if p.2 then some p.1 else none) = [] := by
  induction keys with
  | nil => rfl
  | cons k ks ih => simp [ih]

/-- C9: `Rect.origin` and `Rect.center` are pure functions of the four
fields: `origin r = (r.x, r.y)` and `center r = (r.x + r.width / 2,
r.y + r.height / 2)` with floor division; in particular the center of
`Rect {x := 0, y := 0, width := 5, height := 5}` is `(2, 2)`. -/
theorem rect_origin_center :
    (∀ r : Rect, r.origin = { x := r.x, y := r.y } ∧
      r.center = { x := r.x + r.width / 2, y := r.y + r.height / 2 }) ∧
    (Rect.mk 0 0 5 5).center = Position.mk 2 2 := by
  refine ⟨fun r => ⟨rfl, rfl⟩, ?_⟩
  decide

/-- C7: `press_keys` emits the press-down events in exactly the listed
order followed by the release events in exactly the reversed order: for
`[a, b, c]` the emitted argument list is `a:1, b:1, c:1, c:0, b:0, a:0`,
for `[]` it is empty, and in general the press events spell out the key
list and the release events its reverse. -/
theorem press_keys_ordering :
    (∀ a b c : Nat, press_keys [a, b, c] =
      [(a, true), (b, true), (c, true), (c, false), (b, false), (a, false)]) ∧
    press_keys [] = [] ∧
    (∀ keys : List Nat,
      (press_keys keys).filterMap (fun p => if p.2 then some p.1 else none) = keys ∧
      (press_keys keys).filterMap (fun p => if p.2 then none else some p.1) = keys.reverse) := by
  refine ⟨fun a b c => rfl, rfl, fun keys => ⟨?_, ?_⟩⟩
  · simp only [press_keys, List.filterMap_append]
    rw [filterMap_press_of_press, filterMap_press_of_release, List.append_nil]
  · simp only [press_keys, List.filterMap_append]
    rw [filterMap_release_of_press, filterMap_release_of_release, List.nil_append]

/-- C8: on a strictly key-sorted table (the `BTreeMap` invariant),
`reverse_lookup` returns the first name mapping to the code in the map's
natural key order: a returned name is an entry for the code and is `≤`
every other name mapped to the code; it returns `none` exactly when no
entry maps to the code.  On the table `{"enter" ↦ 28}`, looking up `28`
yields `"enter"` and looking up `9999` yields `none`. -/
theorem reverse_lookup_first_match (codes : List (String × Nat))
    (hsorted : codes.Pairwise (fun a b => a.1 < b.1)) (keycode : Nat) :
    (∀ name, reverse_lookup codes keycode = some name →
      (name, keycode) ∈ codes ∧ ∀ other, (other, keycode) ∈ codes → name ≤ other) ∧
    (reverse_lookup codes keycode = none ↔ ∀ p ∈ codes, p.2 ≠ keycode) ∧
    reverse_lookup [("enter", 28)] 28 = some "enter" ∧
    reverse_lookup [("enter", 28)] 9999 = none := by
  refine ⟨?_, ?_, by decide, by decide⟩
  · induction codes with
    | nil => intro name h; simp [reverse_lookup] at h
    | cons hd tl ih =>
      obtain ⟨hhd, htl⟩ := List.pairwise_cons.mp hsorted
      intro name h
      obtain ⟨hn, hc⟩ := hd
      have hstep : reverse_lookup ((hn, hc) :: tl) keycode =
          if hc = keycode then some hn else reverse_lookup tl keycode := rfl
      rw [hstep] at h
      by_cases hck : hc = keycode
      · rw [if_pos hck] at h
        injection h with hname
        subst hname
        subst hck
        refine ⟨List.mem_cons_self _ _, fun other hother => ?_⟩
        rcases List.mem_cons.mp hother with heq | hmem
        · exact le_of_eq (congrArg Prod.fst heq).symm
        · exact le_of_lt (hhd _ hmem)
      · rw [if_neg hck] at h
        obtain ⟨hmem, hmin⟩ := ih htl name h
        refine ⟨List.mem_cons_of_mem _ hmem, fun other hother => ?_⟩
        rcases List.mem_cons.mp hother with heq | hmem2
        · exact absurd (congrArg Prod.snd heq).symm hck
        · exact hmin other hmem2
  · induction codes with
    | nil => simp [reverse_lookup]
    | cons hd tl ih =>
      obtain ⟨hn, hc⟩ := hd
      have hstep : reverse_lookup ((hn, hc) :: tl) keycode =
          if hc = keycode then some hn else reverse_lookup tl keycode := rfl
      rw [hstep]
      by_cases hck : hc = keycode
      · rw [if_pos hck]
        constructor
        · intro h; exact absurd h (by simp)
        · intro h; exact absurd hck (h (hn, hc) (List.mem_cons_self _ _))
      · rw [if_neg hck, ih (List.pairwise_cons.mp hsorted).2]
        constructor
        · intro h p hp
          rcases List.mem_cons.mp hp with heq | hmem
          · rw [heq]; exact hck
          · exact h p hmem
        · intro h p hp
          exact h p (List.mem_cons_of_mem _ hp)

/-- C8 witness: instantiating `reverse_lookup_first_match` on the
singleton table containing exactly `("enter", 28)`. -/
theorem reverse_lookup_first_match_witness :
    reverse_lookup [("enter", 28)] 28 = some "enter" ∧
    reverse_lookup [("enter", 28)] 9999 = none :=
  ⟨(reverse_lookup_first_match [("enter", 28)] (by simp) 28).2.2.1,
   (reverse_lookup_first_match [("enter", 28)] (by simp) 9999).2.2.2⟩

/-! ## The command model (`src/command.rs`) -/

/-- A single command in a chain of commands (`enum Command`). -/
inductive Command where
  /-- Waits until an image is present at the given location. -/
  | waitForImage (location : Rect) (image : RgbImage) (click : Bool)
  /-- Sleeps for a specified duration. -/
  | sleep (duration : Duration)
  /-- Runs the given shell command in bash. -/
  | shell (command : String)
  /-- Presses the given keys all at once in the given order. -/
  | pressKeys (keys : List Nat)
  /-- Types the given text. -/
  | type (text : String)
  /-- Clicks on the given position. -/
  | click (position : Position)
  /-- Moves the mouse to the given position. -/
  | mouseMove (position : Position)
deriving DecidableEq, Repr

/-- Contains commands that should be executed in a chain
(`struct CommandChain`). -/
structure CommandChain where
  commands : List Command
deriving DecidableEq, Repr

/-! ## Execution semantics

`Command::execute` talks to the collaborators (`grim`, `ydotool`, `bash`).
Each collaborator response is part of an explicit environment, and the
side effects a command performs are recorded as a trace of events, one
event per collaborator invocation at the granularity of `command.rs`. -/

/-- One observable collaborator invocation during execution. -/
inductive Event where
  /-- A `ydotool::click` at the given position (which moves there first). -/
  | click (p : Position)
  /-- A `ydotool::move_mouse` to the given position. -/
  | moveMouse (p : Position)
  /-- A single key press (`press = true`) or release argument of `ydotool key`. -/
  | key (code : Nat) (press : Bool)
  /-- A `ydotool type` invocation with the given text. -/
  | typed (text : String)
  /-- A `std::thread::sleep` for the given duration. -/
  | slept (d : Duration)
  /-- A `bash -c` invocation with the given command text. -/
  | ranShell (cmd : String)
deriving DecidableEq, Repr

/-- One response of the screenshot collaborator inside the
`WaitForImage` polling loop: a hard error (`take_screenshot` returned
`Err`), no image (`Ok(None)`), or a captured image (`Ok(Some(img))`). -/
inductive CapResult where
  | err
  | noImage
  | img (i : RgbImage)
deriving DecidableEq, Repr

/-- The state of the `WaitForImage` polling loop after consuming a finite
sequence of capture responses: the loop broke on a pixel-identical capture
(`matched`), a capture error propagated (`error`), or the loop is still
polling (`running`). -/
inductive WaitOutcome where
  | matched
  | error
  | running
deriving DecidableEq, Repr

/-- The polling loop of `Command::execute` for `WaitForImage`
(command.rs lines 126-131): each iteration takes a screenshot; a hard
error propagates via `?`; `None` hits the `else continue` branch; an
image breaks the loop iff it equals the stored reference image. -/
def waitLoop (image : RgbImage) : List CapResult → WaitOutcome
  | [] => .running
  | .err :: _ => .error
  | .noImage :: rest => waitLoop image rest
  | .img i :: rest => if i = image then .matched else waitLoop image rest

/-- The collaborator responses available to a single command execution. -/
structure ActionEnv where
  /-- Successive responses of `take_screenshot` during a `WaitForImage` loop. -/
  caps : List CapResult
  /-- Whether `ydotool` invocations exit successfully. -/
  injectOk : Bool
  /-- The `bash -c` result for a `Shell` command: `none` if spawning
  failed, `some status` for an exit status. -/
  shell : Option Int

/-- An execution failure of a single command, as produced by
`Command::execute`. -/
inductive ExecError where
  /-- `take_screenshot` returned a hard error, propagated by `?`. -/
  | captureError
  /-- A `ydotool` invocation failed. -/
  | injectionError
  /-- Spawning `bash` failed. -/
  | shellSpawnError
  /-- The error of command.rs line 144: the shell command text together
  with its non-zero exit status. -/
  | shellExit (command : String) (status : Int)
deriving DecidableEq, Repr

/-- The result of executing one command: success or failure, with the
events issued before returning, or divergence (the `WaitForImage` loop
never terminating on the given capture responses). -/
inductive StepResult where
  | ok (events : List Event)
  | fail (events : List Event) (e : ExecError)
  | diverge
deriving DecidableEq, Repr

/-- Whether a step succeeded. -/
def StepResult.isOk : StepResult → Bool
  | .ok _ => true
  | _ => false

/-- The events a step issued. -/
def StepResult.events : StepResult → List Event
  | .ok evs => evs
  | .fail evs _ => evs
  | .diverge => []

/-- Executes the command (`Command::execute`): the match over the command
variants, with each collaborator call answered from `env`. -/
def Command.exec : Command → ActionEnv → StepResult
  | .waitForImage location image doClick, env =>
    match waitLoop image env.caps with
    | .error => .fail [] .captureError
    | .running => .diverge
    | .matched =>
      if doClick then
        if env.injectOk then .ok [.click location.center]
        else .fail [.click location.center] .injectionError
      else .ok []
  | .sleep duration, _ => .ok [.slept duration]
  | .shell command, env =>
    match env.shell with
    | none => .fail [] .shellSpawnError
    | some status =>
      if status = 0 then .ok [.ranShell command]
      else .fail [.ranShell command] (.shellExit command status)
  | .pressKeys keys, env =>
    if env.injectOk then .ok ((press_keys keys).map fun p => Event.key p.1 p.2)
    else .fail ((press_keys keys).map fun p => Event.key p.1 p.2) .injectionError
  | .type text, env =>
    if env.injectOk then .ok [.typed text] else .fail [.typed text] .injectionError
  | .click position, env =>
    if env.injectOk then .ok [.click position] else .fail [.click position] .injectionError
  | .mouseMove position, env =>
    if env.injectOk then .ok [.moveMouse position] else .fail [.moveMouse position] .injectionError

/-- The result of executing a chain: success, failure at the command with
the given index, or divergence inside the command with the given index.
In every case the trace of issued events is carried along. -/
inductive ChainResult where
  | ok (events : List Event)
  | fail (idx : Nat) (events : List Event) (e : ExecError)
  | stuck (idx : Nat) (events : List Event)
deriving DecidableEq, Repr

/-- Executes the commands in order (`CommandChain::execute`): the `for`
loop with `command.execute()?`, so the first failure returns immediately.
`envs i` answers the collaborator calls of the command at index `i`;
`n` is the index of the first command of the remaining list. -/
def runChain (envs : Nat → ActionEnv) : List Command → Nat → ChainResult
  | [], _ => .ok []
  | c :: cs, n =>
    match c.exec (envs n) with
    | .ok evs =>
      match runChain envs cs (n + 1) with
      | .ok evs2 => .ok (evs ++ evs2)
      | .fail i evs2 e => .fail i (evs ++ evs2) e
      | .stuck i evs2 => .stuck i (evs ++ evs2)
    | .fail evs e => .fail n evs e
    | .diverge => .stuck n []

/-- Executes the given command chain (`CommandChain::execute`). -/
def CommandChain.execute (chain : CommandChain) (envs : Nat → ActionEnv) : ChainResult :=
  runChain envs chain.commands 0

/-- The concatenated event trace of a command list, starting at index `n`. -/
def prefixEvents (envs : Nat → ActionEnv) : List Command → Nat → List Event
  | [], _ => []
  | c :: cs, n => (c.exec (envs n)).events ++ prefixEvents envs cs (n + 1)

/-! ## Screenshot capture (`src/grim.rs`) -/

/-- The result of running the external `grim` process: a spawn failure
(`output()?` returns `Err`), or its captured standard output bytes. -/
inductive SpawnResult where
  | err
  | output (bytes : List Nat)

/-- Takes a screenshot of the given screen rectangle
(`grim::take_screenshot`): run `grim` on the rectangle's geometry, decode
its stdout with `image::load_from_memory` (the collaborator `decodeImg`),
and return `Ok(Some(img))`; both the spawn and the decode propagate
errors via `?`. -/
def take_screenshot (decodeImg : List Nat → Option RgbImage)
    (grimRun : Rect → SpawnResult) (r : Rect) : Except Unit (Option RgbImage) :=
  match grimRun r with
  | .err => .error ()
  | .output bytes =>
    match decodeImg bytes with
    | none => .error ()
    | some i => .ok (some i)

/-- Reads a `take_screenshot` result as one polling-loop capture response. -/
def capOfScreenshot : Except Unit (Option RgbImage) → CapResult
  | .error _ => .err
  | .ok none => .noImage
  | .ok (some i) => .img i

/-! ## Claims about the WaitForImage polling loop -/

/-- Any mismatch of width, height or pixel buffer makes the captured image
different from the reference image. -/
lemma img_ne_of_field_ne {i image : RgbImage}
    (h : i.width ≠ image.width ∨ i.height ≠ image.height ∨ i.pixels ≠ image.pixels) :
    i ≠ image := by
  intro he
  subst he
  rcases h with h | h | h <;> exact h rfl

/-- A matched wait loop must have consumed a capture equal to the
reference image. -/
lemma waitLoop_matched_mem (image : RgbImage) (caps : List CapResult)
    (h : waitLoop image caps = .matched) : CapResult.img image ∈ caps := by
  induction caps with
  | nil => exact absurd h (by simp [waitLoop])
  | cons hd tl ih =>
    cases hd with
    | err => exact absurd h (by simp [waitLoop])
    | noImage => exact List.mem_cons_of_mem _ (ih h)
    | img i =>
      by_cases hi : i = image
      · subst hi; exact List.mem_cons_self _ _
      · rw [show waitLoop image (CapResult.img i :: tl) =
            if i = image then .matched else waitLoop image tl from rfl, if_neg hi] at h
        exact List.mem_cons_of_mem _ (ih h)

/-- C2: the `WaitForImage` loop proceeds only after a capture that is
pixel-identical to the stored reference image: a matched loop contains a
capture equal to the reference; if no capture equals the reference
(in particular whenever dimensions or a pixel differ, such a capture is
skipped) the loop never reaches `matched`; and on a match the command
issues exactly one click at `location.center()` when the `click` flag is
set and no click otherwise, while without a match it issues nothing and
does not succeed. -/
theorem wait_for_image_semantics (image : RgbImage) (caps : List CapResult)
    (loc : Rect) (cl : Bool) (env : ActionEnv) :
    (waitLoop image caps = .matched → CapResult.img image ∈ caps) ∧
    (CapResult.img image ∉ caps → waitLoop image caps ≠ .matched) ∧
    (∀ (i : RgbImage) (rest : List CapResult),
      i.width ≠ image.width ∨ i.height ≠ image.height ∨ i.pixels ≠ image.pixels →
      waitLoop image (CapResult.img i :: rest) = waitLoop image rest) ∧
    (waitLoop image env.caps = .matched →
      ((Command.waitForImage loc image cl).exec env).events =
        if cl then [Event.click loc.center] else []) ∧
    (waitLoop image env.caps ≠ .matched →
      ((Command.waitForImage loc image cl).exec env).isOk = false ∧
      ((Command.waitForImage loc image cl).exec env).events = []) := by
  refine ⟨waitLoop_matched_mem image caps, ?_, ?_, ?_, ?_⟩
  · intro hnot hm
    exact hnot (waitLoop_matched_mem image caps hm)
  · intro i rest h
    rw [show waitLoop image (CapResult.img i :: rest) =
        if i = image then .matched else waitLoop image rest from rfl,
      if_neg (img_ne_of_field_ne h)]
  · intro hm
    simp only [Command.exec, hm]
    cases cl with
    | false => simp [StepResult.events]
    | true =>
      cases hinj : env.injectOk <;> simp [StepResult.events]
  · intro hm
    cases hout : waitLoop image env.caps with
    | matched => exact absurd hout hm
    | error => simp [Command.exec, hout, StepResult.isOk, StepResult.events]
    | running => simp [Command.exec, hout, StepResult.isOk, StepResult.events]

/-- C2 witness: with captures that first yield no image, then a
differently-pixelled image, then the reference image `⟨1, 1, [1, 2, 3]⟩`,
the wait command matches and issues exactly the click at the center of
`⟨0, 0, 5, 5⟩`. -/
theorem wait_for_image_semantics_witness :
    ((Command.waitForImage (Rect.mk 0 0 5 5) (RgbImage.mk 1 1 [1, 2, 3]) true).exec
      (ActionEnv.mk
        [CapResult.noImage, CapResult.img (RgbImage.mk 1 1 [9, 9, 9]),
          CapResult.img (RgbImage.mk 1 1 [1, 2, 3])] true (some 0))).events =
      [Event.click (Rect.mk 0 0 5 5).center] := by
  have h := (wait_for_image_semantics (RgbImage.mk 1 1 [1, 2, 3])
    [] (Rect.mk 0 0 5 5) true
    (ActionEnv.mk
      [CapResult.noImage, CapResult.img (RgbImage.mk 1 1 [9, 9, 9]),
        CapResult.img (RgbImage.mk 1 1 [1, 2, 3])] true (some 0))).2.2.2.1
    (by decide)
  simpa using h

/-- C4: inside the `WaitForImage` loop a capture yielding no image is
treated exactly like a non-matching capture — the loop just continues —
while a capture returning a hard error propagates: the command fails with
a capture error, and executing a chain starting with such a wait command
aborts immediately at index 0 with that error. -/
theorem wait_capture_failure (image : RgbImage) (rest : List CapResult)
    (loc : Rect) (cl : Bool) (env : ActionEnv) (envs : Nat → ActionEnv)
    (post : List Command) :
    waitLoop image (CapResult.noImage :: rest) = waitLoop image rest ∧
    waitLoop image (CapResult.err :: rest) = .error ∧
    (waitLoop image env.caps = .error →
      (Command.waitForImage loc image cl).exec env = .fail [] .captureError) ∧
    (waitLoop image (envs 0).caps = .error →
      runChain envs (Command.waitForImage loc image cl :: post) 0 =
        .fail 0 [] .captureError) := by
  refine ⟨rfl, rfl, ?_, ?_⟩
  · intro h
    simp [Command.exec, h]
  · intro h
    simp [runChain, Command.exec, h]

/-- C4 witness: a chain whose first command is a wait on captures that
immediately yield a hard error fails at index 0 with a capture error, and
the sleep command after it never runs. -/
theorem wait_capture_failure_witness :
    runChain (fun _ => ActionEnv.mk [CapResult.err] true (some 0))
      [Command.waitForImage (Rect.mk 0 0 5 5) (RgbImage.mk 1 1 [1, 2, 3]) true,
        Command.sleep (Duration.mk 1 0)] 0 =
      ChainResult.fail 0 [] ExecError.captureError :=
  (wait_capture_failure (RgbImage.mk 1 1 [1, 2, 3]) [] (Rect.mk 0 0 5 5) true
    (ActionEnv.mk [CapResult.err] true (some 0))
    (fun _ => ActionEnv.mk [CapResult.err] true (some 0))
    [Command.sleep (Duration.mk 1 0)]).2.2.2 (by decide)

/-- C10: `take_screenshot` never returns `Ok(None)`: every spawn failure
or undecodable output is an `Err`, so read as a capture response it is
never `noImage` — the `else continue` branch of the wait loop is
unreachable for real screenshots — and whenever it does not produce an
image, the wait loop aborts with an error. -/
theorem take_screenshot_never_none (decodeImg : List Nat → Option RgbImage)
    (grimRun : Rect → SpawnResult) (r : Rect) :
    take_screenshot decodeImg grimRun r ≠ Except.ok none ∧
    capOfScreenshot (take_screenshot decodeImg grimRun r) ≠ CapResult.noImage ∧
    (∀ (image : RgbImage) (rest : List CapResult),
      (∀ i, take_screenshot decodeImg grimRun r ≠ Except.ok (some i)) →
      waitLoop image (capOfScreenshot (take_screenshot decodeImg grimRun r) :: rest) =
        .error) := by
  cases hg : grimRun r with
  | err =>
    refine ⟨by simp [take_screenshot, hg], by simp [take_screenshot, hg, capOfScreenshot], ?_⟩
    intro image rest _
    simp [take_screenshot, hg, capOfScreenshot, waitLoop]
  | output bytes =>
    cases hd : decodeImg bytes with
    | none =>
      refine ⟨by simp [take_screenshot, hg, hd],
        by simp [take_screenshot, hg, hd, capOfScreenshot], ?_⟩
      intro image rest _
      simp [take_screenshot, hg, hd, capOfScreenshot, waitLoop]
    | some i =>
      refine ⟨by simp [take_screenshot, hg, hd],
        by simp [take_screenshot, hg, hd, capOfScreenshot], ?_⟩
      intro image rest hno
      exact absurd (by simp [take_screenshot, hg, hd]) (hno i)

/-! ## Claims about chain execution order -/

/-- A successful step is an `ok` with some event list. -/
lemma StepResult.isOk_iff {r : StepResult} : r.isOk = true ↔ ∃ evs, r = .ok evs := by
  cases r <;> simp [StepResult.isOk]

/-- Failing after a fully successful prefix: if every command of `pre`
succeeds and the next command fails, the chain fails at the index right
after the prefix, with the prefix events followed by the failing command's
events, independently of what follows. -/
lemma runChain_fail_after_prefix (envs : Nat → ActionEnv) :
    ∀ (pre : List Command) (n : Nat) (c : Command) (post : List Command)
      (e : ExecError) (evs : List Event),
      (∀ i (hi : i < pre.length), ((pre.get ⟨i, hi⟩).exec (envs (n + i))).isOk = true) →
      c.exec (envs (n + pre.length)) = .fail evs e →
      runChain envs (pre ++ c :: post) n =
        .fail (n + pre.length) (prefixEvents envs pre n ++ evs) e := by
  intro pre
  induction pre with
  | nil =>
    intro n c post e evs _ hc
    simp only [List.length_nil, Nat.add_zero] at hc
    simp [runChain, hc, prefixEvents]
  | cons p ps ih =>
    intro n c post e evs hpre hc
    have h0 : (p.exec (envs n)).isOk = true := by
      have := hpre 0 (by simp)
      simpa using this
    obtain ⟨evs0, hev⟩ := StepResult.isOk_iff.mp h0
    have hps : ∀ i (hi : i < ps.length),
        ((ps.get ⟨i, hi⟩).exec (envs ((n + 1) + i))).isOk = true := by
      intro i hi
      have := hpre (i + 1) (by simpa using Nat.succ_lt_succ hi)
      have harith : n + (i + 1) = (n + 1) + i := by omega
      simpa [harith] using this
    have hc' : c.exec (envs ((n + 1) + ps.length)) = .fail evs e := by
      have harith : n + (p :: ps).length = (n + 1) + ps.length := by simp; omega
      rwa [harith] at hc
    have hrec := ih (n + 1) c post e evs hps hc'
    have harith2 : (n + 1) + ps.length = n + (p :: ps).length := by simp; omega
    rw [harith2] at hrec
    simp only [List.cons_append, runChain, hev, prefixEvents]
    rw [show ps.append (c :: post) = ps ++ c :: post from rfl, hrec]
    simp [StepResult.events, List.append_assoc]

/-- C3: `CommandChain.execute` runs the commands strictly in order and is
fail-fast: once every command before index `|pre|` has succeeded, a
failing command at that index makes the whole chain fail there with the
failing command's error, and no later command runs — the result does not
depend on `post` at all.  In particular a `Shell` command whose process
exits with a non-zero status fails the chain at its own index with the
error carrying the command text and the exit status. -/
theorem chain_fail_fast (envs : Nat → ActionEnv) (pre post : List Command)
    (hpre : ∀ i (hi : i < pre.length), ((pre.get ⟨i, hi⟩).exec (envs i)).isOk = true) :
    (∀ (c : Command) (e : ExecError) (evs : List Event),
      c.exec (envs pre.length) = .fail evs e →
      CommandChain.execute (CommandChain.mk (pre ++ c :: post)) envs =
        .fail pre.length (prefixEvents envs pre 0 ++ evs) e) ∧
    (∀ (cmd : String) (s : Int), (envs pre.length).shell = some s → s ≠ 0 →
      CommandChain.execute (CommandChain.mk (pre ++ Command.shell cmd :: post)) envs =
        .fail pre.length (prefixEvents envs pre 0 ++ [Event.ranShell cmd])
          (ExecError.shellExit cmd s)) := by
  have hgen : ∀ (c : Command) (e : ExecError) (evs : List Event),
      c.exec (envs pre.length) = .fail evs e →
      CommandChain.execute (CommandChain.mk (pre ++ c :: post)) envs =
        .fail pre.length (prefixEvents envs pre 0 ++ evs) e := by
    intro c e evs hc
    have h := runChain_fail_after_prefix envs pre 0 c post e evs
      (by intro i hi; simpa using hpre i hi) (by simpa using hc)
    simpa [CommandChain.execute] using h
  refine ⟨hgen, ?_⟩
  intro cmd s hshell hs
  refine hgen (Command.shell cmd) (ExecError.shellExit cmd s) [Event.ranShell cmd] ?_
  simp [Command.exec, hshell, hs]

/-- C3 witness: after a successful sleep, running the shell command
`"false"` with exit status 1 fails the two-remaining-command chain at
index 1 with the error carrying the text `"false"` and status 1; the
final `Type` command never runs. -/
theorem chain_fail_fast_witness :
    CommandChain.execute
      (CommandChain.mk
        ([Command.sleep (Duration.mk 1 0)] ++
          Command.shell "false" :: [Command.type "x"]))
      (fun _ => ActionEnv.mk [] true (some 1)) =
      ChainResult.fail 1
        (prefixEvents (fun _ => ActionEnv.mk [] true (some 1))
          [Command.sleep (Duration.mk 1 0)] 0 ++ [Event.ranShell "false"])
        (ExecError.shellExit "false" 1) :=
  (chain_fail_fast (fun _ => ActionEnv.mk [] true (some 1))
    [Command.sleep (Duration.mk 1 0)] [Command.type "x"] (by decide)).2
    "false" 1 rfl (by decide)

/-- C10 witness: with `grim` output that does not decode as an image, the
capture response put in front of any wait loop aborts it with an error. -/
theorem take_screenshot_never_none_witness :
    waitLoop (RgbImage.mk 1 1 [1, 2, 3])
      (capOfScreenshot
        (take_screenshot (fun _ => none) (fun _ => SpawnResult.output []) (Rect.mk 0 0 1 1)) ::
        []) = WaitOutcome.error :=
  (take_screenshot_never_none (fun _ => none) (fun _ => SpawnResult.output [])
    (Rect.mk 0 0 1 1)).2.2 (RgbImage.mk 1 1 [1, 2, 3]) []
    (fun i h => by simp [take_screenshot] at h)

/-! ## Base64 (the `base64` crate's `STANDARD` engine)

`serde_img` encodes the PNG bytes with
`base64::engine::general_purpose::STANDARD`: the RFC 4648 standard
alphabet with `=` padding.  Encoding turns each group of three bytes into
four alphabet characters; a trailing group of two bytes becomes three
characters plus one `=`, a trailing single byte two characters plus two
`=`.  Decoding is strict: the length must be a multiple of four, `=` may
appear only as final padding, and the unused low bits of the final
character must be zero. -/

/-- The standard-alphabet character of a sextet value (0-63). -/
def b64CharOfSextet (s : Nat) : Char :=
  if s < 26 then Char.ofNat (65 + s)
  else if s < 52 then Char.ofNat (97 + (s - 26))
  else if s < 62 then Char.ofNat (48 + (s - 52))
  else if s = 62 then '+'
  else '/'

/-- The sextet value of a standard-alphabet character, `none` for any
character outside the alphabet (including `=`). -/
def b64SextetOfChar (c : Char) : Option Nat :=
  if 65 ≤ c.toNat ∧ c.toNat ≤ 90 then some (c.toNat - 65)
  else if 97 ≤ c.toNat ∧ c.toNat ≤ 122 then some (c.toNat - 97 + 26)
  else if 48 ≤ c.toNat ∧ c.toNat ≤ 57 then some (c.toNat - 48 + 52)
  else if c.toNat = 43 then some 62
  else if c.toNat = 47 then some 63
  else none

/-- Base64-encode a byte list, three bytes at a time. -/
def b64EncodeChunks : List Nat → List Char
  | a :: b :: c :: rest =>
    b64CharOfSextet (a / 4) :: b64CharOfSextet (a % 4 * 16 + b / 16) ::
      b64CharOfSextet (b % 16 * 4 + c / 64) :: b64CharOfSextet (c % 64) ::
      b64EncodeChunks rest
  | [a, b] =>
    [b64CharOfSextet (a / 4), b64CharOfSextet (a % 4 * 16 + b / 16),
      b64CharOfSextet (b % 16 * 4), '=']
  | [a] =>
    [b64CharOfSextet (a / 4), b64CharOfSextet (a % 4 * 16), '=', '=']
  | [] => []

/-- Base64-decode a character list, four characters at a time; strict
about length, padding placement and trailing bits. -/
def b64DecodeChunks : List Char → Option (List Nat)
  | [] => some []
  | c1 :: c2 :: c3 :: c4 :: rest =>
    if c3 = '=' then
      if c4 = '=' ∧ rest = [] then
        match b64SextetOfChar c1, b64SextetOfChar c2 with
        | some s1, some s2 =>
          if s2 % 16 = 0 then some [s1 * 4 + s2 / 16] else none
        | _, _ => none
      else none
    else if c4 = '=' then
      if rest = [] then
        match b64SextetOfChar c1, b64SextetOfChar c2, b64SextetOfChar c3 with
        | some s1, some s2, some s3 =>
          if s3 % 4 = 0 then some [s1 * 4 + s2 / 16, s2 % 16 * 16 + s3 / 4] else none
        | _, _, _ => none
      else none
    else
      match b64SextetOfChar c1, b64SextetOfChar c2, b64SextetOfChar c3,
          b64SextetOfChar c4 with
      | some s1, some s2, some s3, some s4 =>
        match b64DecodeChunks rest with
        | some bs =>
          some ((s1 * 4 + s2 / 16) :: (s2 % 16 * 16 + s3 / 4) :: (s3 % 4 * 64 + s4) :: bs)
        | none => none
      | _, _, _, _ => none
  | _ => none

/-- Base64-encode bytes to a string (`STANDARD.encode`). -/
def b64Encode (bs : List Nat) : String :=
  String.mk (b64EncodeChunks bs)

/-- Base64-decode a string to bytes (`STANDARD.decode`). -/
def b64Decode (s : String) : Option (List Nat) :=
  b64DecodeChunks s.data

/-- Decoding the character of a sextet value returns the sextet. -/
lemma b64SextetOfChar_b64CharOfSextet : ∀ s < 64,
    b64SextetOfChar (b64CharOfSextet s) = some s := by decide

/-- No sextet value is encoded as the padding character. -/
lemma b64CharOfSextet_ne_pad : ∀ s < 64, b64CharOfSextet s ≠ '=' := by decide

/-- Base64 round-trip at the chunk level: decoding an encoded byte list
returns the bytes, provided each byte is below 256. -/
lemma b64DecodeChunks_b64EncodeChunks : ∀ (bs : List Nat), (∀ x ∈ bs, x < 256) →
    b64DecodeChunks (b64EncodeChunks bs) = some bs := by
  intro bs
  induction bs using b64EncodeChunks.induct with
  | case1 a b c rest ih =>
    intro h
    have ha : a < 256 := h a (by simp)
    have hb : b < 256 := h b (by simp)
    have hc : c < 256 := h c (by simp)
    have h1 : a / 4 < 64 := by omega
    have h2 : a % 4 * 16 + b / 16 < 64 := by omega
    have h3 : b % 16 * 4 + c / 64 < 64 := by omega
    have h4 : c % 64 < 64 := by omega
    simp only [b64EncodeChunks, b64DecodeChunks,
      if_neg (b64CharOfSextet_ne_pad _ h3), if_neg (b64CharOfSextet_ne_pad _ h4),
      b64SextetOfChar_b64CharOfSextet _ h1, b64SextetOfChar_b64CharOfSextet _ h2,
      b64SextetOfChar_b64CharOfSextet _ h3, b64SextetOfChar_b64CharOfSextet _ h4,
      ih (fun x hx => h x (by simp [hx]))]
    refine congrArg some ?_
    refine List.cons_eq_cons.mpr ⟨by omega, ?_⟩
    refine List.cons_eq_cons.mpr ⟨by omega, ?_⟩
    exact List.cons_eq_cons.mpr ⟨by omega, rfl⟩
  | case2 a b =>
    intro h
    have ha : a < 256 := h a (by simp)
    have hb : b < 256 := h b (by simp)
    have h1 : a / 4 < 64 := by omega
    have h2 : a % 4 * 16 + b / 16 < 64 := by omega
    have h3 : b % 16 * 4 < 64 := by omega
    have hm4 : b % 16 * 4 % 4 = 0 := by omega
    simp only [b64EncodeChunks, b64DecodeChunks,
      if_neg (b64CharOfSextet_ne_pad _ h3),
      b64SextetOfChar_b64CharOfSextet _ h1, b64SextetOfChar_b64CharOfSextet _ h2,
      b64SextetOfChar_b64CharOfSextet _ h3]
    simp [hm4]
    constructor <;> omega
  | case3 a =>
    intro h
    have ha : a < 256 := h a (by simp)
    have h1 : a / 4 < 64 := by omega
    have h2 : a % 4 * 16 < 64 := by omega
    have hm16 : a % 4 * 16 % 16 = 0 := by omega
    simp only [b64EncodeChunks, b64DecodeChunks,
      b64SextetOfChar_b64CharOfSextet _ h1, b64SextetOfChar_b64CharOfSextet _ h2]
    simp [hm16]
    omega
  | case4 =>
    intro _
    rfl

/-- Base64 round-trip at the string level. -/
lemma b64Decode_b64Encode (bs : List Nat) (h : ∀ x ∈ bs, x < 256) :
    b64Decode (b64Encode bs) = some bs :=
  b64DecodeChunks_b64EncodeChunks bs h

/-! ## The JSON persistence format (`serde`/`serde_json`)

The chain is persisted with `serde_json`.  The embedding works at the
JSON-value level: `Json` is the abstract value tree, `serializeCommand`
follows serde's externally tagged enum encoding (a one-entry object
`{"VariantName": {fields...}}`), and the deserializers mirror the derived
`Deserialize` implementations (fields fetched by name, numeric range
checks of `u32`/`u64`, serde's `Duration` carry of whole seconds out of
the nanosecond field).  The PNG codec of the `image` crate stays a
collaborator: `encodeImg` stands for `write_to(..., Png)` and `decodeImg`
for `load_from_memory(..).to_rgb8()`. -/

/-- A JSON value. -/
inductive Json where
  | str (s : String)
  | nat (n : Nat)
  | bool (b : Bool)
  | arr (items : List Json)
  | obj (fields : List (String × Json))

/-- Fetch the first field with the given name. -/
def Json.getField : List (String × Json) → String → Option Json
  | [], _ => none
  | (k, v) :: rest, name => if k = name then some v else Json.getField rest name

/-- The result of a serde deserialization: a value, a deserialization
error (`D::Error`), or a crash — the `.unwrap()` on
`image::load_from_memory` in `serde_img::deserialize` aborts the process
instead of returning an error. -/
inductive DeResult (α : Type) where
  | ok (a : α)
  | deError
  | crash
deriving DecidableEq, Repr

/-- Sequence two deserialization steps; errors and crashes propagate. -/
def DeResult.bind {α β : Type} : DeResult α → (α → DeResult β) → DeResult β
  | .ok a, f => f a
  | .deError, _ => .deError
  | .crash, _ => .crash

@[simp] lemma DeResult.bind_ok {α β : Type} (a : α) (f : α → DeResult β) :
    DeResult.bind (.ok a) f = f a := rfl

@[simp] lemma DeResult.bind_deError {α β : Type} (f : α → DeResult β) :
    DeResult.bind (α := α) .deError f = .deError := rfl

@[simp] lemma DeResult.bind_crash {α β : Type} (f : α → DeResult β) :
    DeResult.bind (α := α) .crash f = .crash := rfl

/-- A required struct field: missing fields are a deserialization error. -/
def reqField (fields : List (String × Json)) (name : String) : DeResult Json :=
  match Json.getField fields name with
  | some j => .ok j
  | none => .deError

/-- Serialize a `Position` (serde derive: an object with `x` and `y`). -/
def serializePosition (p : Position) : Json :=
  .obj [("x", .nat p.x), ("y", .nat p.y)]

/-- Serialize a `Rect`. -/
def serializeRect (r : Rect) : Json :=
  .obj [("x", .nat r.x), ("y", .nat r.y), ("width", .nat r.width), ("height", .nat r.height)]

/-- Serialize a `Duration` (serde: an object with `secs` and `nanos`). -/
def serializeDuration (d : Duration) : Json :=
  .obj [("secs", .nat d.secs), ("nanos", .nat d.nanos)]

/-- Serialize the image field (`serde_img::serialize`): PNG-encode, then
base64-encode into a JSON string. -/
def serializeImage (encodeImg : RgbImage → List Nat) (img : RgbImage) : Json :=
  .str (b64Encode (encodeImg img))

/-- Serialize a `Command` (serde derive: externally tagged, one object
entry named after the variant, holding the object of its fields). -/
def serializeCommand (encodeImg : RgbImage → List Nat) : Command → Json
  | .waitForImage location image cl =>
    .obj [("WaitForImage", .obj [("location", serializeRect location),
      ("image", serializeImage encodeImg image), ("click", .bool cl)])]
  | .sleep duration =>
    .obj [("Sleep", .obj [("duration", serializeDuration duration)])]
  | .shell command =>
    .obj [("Shell", .obj [("command", .str command)])]
  | .pressKeys keys =>
    .obj [("PressKeys", .obj [("keys", .arr (keys.map Json.nat))])]
  | .type text =>
    .obj [("Type", .obj [("text", .str text)])]
  | .click position =>
    .obj [("Click", .obj [("position", serializePosition position)])]
  | .mouseMove position =>
    .obj [("MouseMove", .obj [("position", serializePosition position)])]

/-- Serialize a `CommandChain`: an object with a `commands` array. -/
def serializeCommandChain (encodeImg : RgbImage → List Nat) (chain : CommandChain) : Json :=
  .obj [("commands", .arr (chain.commands.map (serializeCommand encodeImg)))]

/-- Deserialize a `u32`: a JSON number below `2^32`. -/
def deU32 : Json → DeResult Nat
  | .nat n => if n < 4294967296 then .ok n else .deError
  | _ => .deError

/-- Deserialize a `u64`: a JSON number below `2^64`. -/
def deU64 : Json → DeResult Nat
  | .nat n => if n < 18446744073709551616 then .ok n else .deError
  | _ => .deError

/-- Deserialize a `bool`. -/
def deBool : Json → DeResult Bool
  | .bool b => .ok b
  | _ => .deError

/-- Deserialize a `String`. -/
def deString : Json → DeResult String
  | .str s => .ok s
  | _ => .deError

/-- Deserialize a `Position`. -/
def dePosition : Json → DeResult Position
  | .obj fields =>
    DeResult.bind (reqField fields "x") fun jx =>
    DeResult.bind (deU32 jx) fun x =>
    DeResult.bind (reqField fields "y") fun jy =>
    DeResult.bind (deU32 jy) fun y =>
    .ok (Position.mk x y)
  | _ => .deError

/-- Deserialize a `Rect`. -/
def deRect : Json → DeResult Rect
  | .obj fields =>
    DeResult.bind (reqField fields "x") fun jx =>
    DeResult.bind (deU32 jx) fun x =>
    DeResult.bind (reqField fields "y") fun jy =>
    DeResult.bind (deU32 jy) fun y =>
    DeResult.bind (reqField fields "width") fun jw =>
    DeResult.bind (deU32 jw) fun width =>
    DeResult.bind (reqField fields "height") fun jh =>
    DeResult.bind (deU32 jh) fun height =>
    .ok (Rect.mk x y width height)
  | _ => .deError

/-- Deserialize a `Duration` (serde's impl: read `secs` as `u64` and
`nanos` as `u32`, carry whole seconds out of `nanos`, and fail on `u64`
overflow of the seconds). -/
def deDuration : Json → DeResult Duration
  | .obj fields =>
    DeResult.bind (reqField fields "secs") fun js =>
    DeResult.bind (deU64 js) fun secs =>
    DeResult.bind (reqField fields "nanos") fun jn =>
    DeResult.bind (deU32 jn) fun nanos =>
    if secs + nanos / 1000000000 < 18446744073709551616 then
      .ok (Duration.mk (secs + nanos / 1000000000) (nanos % 1000000000))
    else .deError
  | _ => .deError

/-- Deserialize a `Vec<u32>` element list. -/
def deU32List : List Json → DeResult (List Nat)
  | [] => .ok []
  | j :: rest =>
    DeResult.bind (deU32 j) fun n =>
    DeResult.bind (deU32List rest) fun ns =>
    .ok (n :: ns)

/-- Deserialize the image field (`serde_img::deserialize`): expect a
string, base64-decode it (a base64 error is mapped to a deserialization
error via `E::custom`), then decode the bytes with
`image::load_from_memory(&bytes).unwrap().to_rgb8()` — the `.unwrap()`
turns an image-decode failure into a crash, not a deserialization
error. -/
def deImage (decodeImg : List Nat → Option RgbImage) : Json → DeResult RgbImage
  | .str s =>
    match b64Decode s with
    | none => .deError
    | some bytes =>
      match decodeImg bytes with
      | none => .crash
      | some i => .ok i
  | _ => .deError

/-- Deserialize a `Command` from its externally tagged object. -/
def deCommand (decodeImg : List Nat → Option RgbImage) : Json → DeResult Command
  | .obj [(tag, content)] =>
    if tag = "WaitForImage" then
      match content with
      | .obj fields =>
        DeResult.bind (reqField fields "location") fun jl =>
        DeResult.bind (deRect jl) fun location =>
        DeResult.bind (reqField fields "image") fun ji =>
        DeResult.bind (deImage decodeImg ji) fun image =>
        DeResult.bind (reqField fields "click") fun jc =>
        DeResult.bind (deBool jc) fun cl =>
        .ok (.waitForImage location image cl)
      | _ => .deError
    else if tag = "Sleep" then
      match content with
      | .obj fields =>
        DeResult.bind (reqField fields "duration") fun jd =>
        DeResult.bind (deDuration jd) fun duration =>
        .ok (.sleep duration)
      | _ => .deError
    else if tag = "Shell" then
      match content with
      | .obj fields =>
        DeResult.bind (reqField fields "command") fun jc =>
        DeResult.bind (deString jc) fun command =>
        .ok (.shell command)
      | _ => .deError
    else if tag = "PressKeys" then
      match content with
      | .obj fields =>
        DeResult.bind (reqField fields "keys") fun jk =>
        (match jk with
        | .arr items =>
          DeResult.bind (deU32List items) fun keys =>
          .ok (.pressKeys keys)
        | _ => .deError)
      | _ => .deError
    else if tag = "Type" then
      match content with
      | .obj fields =>
        DeResult.bind (reqField fields "text") fun jt =>
        DeResult.bind (deString jt) fun text =>
        .ok (.type text)
      | _ => .deError
    else if tag = "Click" then
      match content with
      | .obj fields =>
        DeResult.bind (reqField fields "position") fun jp =>
        DeResult.bind (dePosition jp) fun position =>
        .ok (.click position)
      | _ => .deError
    else if tag = "MouseMove" then
      match content with
      | .obj fields =>
        DeResult.bind (reqField fields "position") fun jp =>
        DeResult.bind (dePosition jp) fun position =>
        .ok (.mouseMove position)
      | _ => .deError
    else .deError
  | _ => .deError

/-- Deserialize the `commands` array elements in order; the first error
or crash aborts the whole load, so no partial chain can be produced. -/
def deCommandList (decodeImg : List Nat → Option RgbImage) : List Json → DeResult (List Command)
  | [] => .ok []
  | j :: rest =>
    DeResult.bind (deCommand decodeImg j) fun c =>
    DeResult.bind (deCommandList decodeImg rest) fun cs =>
    .ok (c :: cs)

/-- Deserialize a `CommandChain`. -/
def deCommandChain (decodeImg : List Nat → Option RgbImage) : Json → DeResult CommandChain
  | .obj fields =>
    DeResult.bind (reqField fields "commands") fun jc =>
    match jc with
    | .arr items =>
      DeResult.bind (deCommandList decodeImg items) fun cs =>
      .ok (CommandChain.mk cs)
    | _ => .deError
  | _ => .deError

/-- The numeric fields of a command fit their Rust machine-integer types
(`u32` coordinates and key codes, `u64` seconds, nanoseconds below
`10^9`) — an invariant every value of the Rust `Command` type satisfies
by construction. -/
def Command.wf : Command → Bool
  | .waitForImage location _ _ =>
    decide (location.x < 4294967296) && decide (location.y < 4294967296) &&
      decide (location.width < 4294967296) && decide (location.height < 4294967296)
  | .sleep duration =>
    decide (duration.secs < 18446744073709551616) && decide (duration.nanos < 1000000000)
  | .shell _ => true
  | .pressKeys keys => keys.all fun k => decide (k < 4294967296)
  | .type _ => true
  | .click position => decide (position.x < 4294967296) && decide (position.y < 4294967296)
  | .mouseMove position => decide (position.x < 4294967296) && decide (position.y < 4294967296)

/-! ## Round-trip of the persistence format -/

/-- Positions deserialize back from their serialization. -/
lemma dePosition_serializePosition (p : Position)
    (hx : p.x < 4294967296) (hy : p.y < 4294967296) :
    dePosition (serializePosition p) = .ok p := by
  simp [dePosition, serializePosition, reqField, Json.getField, deU32, hx, hy]

/-- Rectangles deserialize back from their serialization. -/
lemma deRect_serializeRect (r : Rect) (hx : r.x < 4294967296) (hy : r.y < 4294967296)
    (hw : r.width < 4294967296) (hh : r.height < 4294967296) :
    deRect (serializeRect r) = .ok r := by
  simp [deRect, serializeRect, reqField, Json.getField, deU32, hx, hy, hw, hh]

/-- Durations deserialize back from their serialization: the nanosecond
carry is trivial because the Rust `Duration` keeps `nanos < 10^9`. -/
lemma deDuration_serializeDuration (d : Duration)
    (hs : d.secs < 18446744073709551616) (hn : d.nanos < 1000000000) :
    deDuration (serializeDuration d) = .ok d := by
  have hn32 : d.nanos < 4294967296 := by omega
  simp [deDuration, serializeDuration, reqField, Json.getField, deU64, deU32,
    hs, hn32, Nat.div_eq_of_lt hn, Nat.mod_eq_of_lt hn]

/-- Key code lists deserialize back from their serialization. -/
lemma deU32List_map_nat : ∀ (keys : List Nat), (∀ k ∈ keys, k < 4294967296) →
    deU32List (keys.map Json.nat) = .ok keys := by
  intro keys
  induction keys with
  | nil => intro _; rfl
  | cons k ks ih =>
    intro h
    have hk : k < 4294967296 := h k (by simp)
    simp only [List.map_cons, deU32List, deU32, if_pos hk, DeResult.bind_ok]
    rw [ih fun x hx => h x (List.mem_cons_of_mem _ hx)]
    rfl

/-- The image field deserializes back from its serialization whenever the
PNG collaborator round-trips on this image and produces bytes. -/
lemma deImage_serializeImage (encodeImg : RgbImage → List Nat)
    (decodeImg : List Nat → Option RgbImage) (img : RgbImage)
    (hrt : decodeImg (encodeImg img) = some img)
    (hb : ∀ x ∈ encodeImg img, x < 256) :
    deImage decodeImg (serializeImage encodeImg img) = .ok img := by
  simp [deImage, serializeImage, b64Decode_b64Encode _ hb, hrt]

/-- A single command deserializes back from its serialization. -/
lemma deCommand_serializeCommand (encodeImg : RgbImage → List Nat)
    (decodeImg : List Nat → Option RgbImage) (c : Command) (hwf : c.wf = true)
    (himg : ∀ location image cl, c = .waitForImage location image cl →
      decodeImg (encodeImg image) = some image ∧ ∀ x ∈ encodeImg image, x < 256) :
    deCommand decodeImg (serializeCommand encodeImg c) = .ok c := by
  cases c with
  | waitForImage location image cl =>
    obtain ⟨hrt, hb⟩ := himg location image cl rfl
    simp only [Command.wf, Bool.and_eq_true, decide_eq_true_eq] at hwf
    obtain ⟨⟨⟨hx, hy⟩, hw⟩, hh⟩ := hwf
    simp [serializeCommand, deCommand, reqField, Json.getField,
      deRect_serializeRect location hx hy hw hh,
      deImage_serializeImage encodeImg decodeImg image hrt hb, deBool]
  | sleep duration =>
    simp only [Command.wf, Bool.and_eq_true, decide_eq_true_eq] at hwf
    obtain ⟨hs, hn⟩ := hwf
    simp [serializeCommand, deCommand, reqField, Json.getField,
      deDuration_serializeDuration duration hs hn]
  | shell command =>
    simp [serializeCommand, deCommand, reqField, Json.getField, deString]
  | pressKeys keys =>
    simp only [Command.wf, List.all_eq_true, decide_eq_true_eq] at hwf
    simp [serializeCommand, deCommand, reqField, Json.getField,
      deU32List_map_nat keys hwf]
  | type text =>
    simp [serializeCommand, deCommand, reqField, Json.getField, deString]
  | click position =>
    simp only [Command.wf, Bool.and_eq_true, decide_eq_true_eq] at hwf
    obtain ⟨hx, hy⟩ := hwf
    simp [serializeCommand, deCommand, reqField, Json.getField,
      dePosition_serializePosition position hx hy]
  | mouseMove position =>
    simp only [Command.wf, Bool.and_eq_true, decide_eq_true_eq] at hwf
    obtain ⟨hx, hy⟩ := hwf
    simp [serializeCommand, deCommand, reqField, Json.getField,
      dePosition_serializePosition position hx hy]

/-- A command list deserializes back element by element. -/
lemma deCommandList_map (encodeImg : RgbImage → List Nat)
    (decodeImg : List Nat → Option RgbImage) :
    ∀ (cmds : List Command), (∀ c ∈ cmds, c.wf = true) →
    (∀ location image cl, Command.waitForImage location image cl ∈ cmds →
      decodeImg (encodeImg image) = some image ∧ ∀ x ∈ encodeImg image, x < 256) →
    deCommandList decodeImg (cmds.map (serializeCommand encodeImg)) = .ok cmds := by
  intro cmds
  induction cmds with
  | nil => intro _ _; rfl
  | cons c cs ih =>
    intro hwf himg
    simp only [List.map_cons, deCommandList]
    rw [deCommand_serializeCommand encodeImg decodeImg c (hwf c (by simp))
      (fun location image cl hc => himg location image cl
        (by rw [← hc]; exact List.mem_cons_self c cs))]
    rw [ih (fun d hd => hwf d (List.mem_cons_of_mem _ hd))
      (fun location image cl hm => himg location image cl (List.mem_cons_of_mem _ hm))]
    rfl

/-- C1: serializing a `CommandChain` to the JSON persistence format and
deserializing yields an equal chain — equality of the `Command` list is
structural, so it entails the same number of actions, the same variants
in the same order, pixel-for-pixel equal reference images with equal
dimensions, bit-exact key-code lists, and equal durations, texts,
positions and rectangles.  The hypotheses state exactly what the Rust
types guarantee: machine-integer fields are in range (`Command.wf`) and
the `image` crate's PNG codec round-trips losslessly on the embedded
reference images, producing bytes. -/
theorem serialize_deserialize_roundtrip (encodeImg : RgbImage → List Nat)
    (decodeImg : List Nat → Option RgbImage) (chain : CommandChain)
    (hwf : ∀ c ∈ chain.commands, c.wf = true)
    (himg : ∀ location image cl, Command.waitForImage location image cl ∈ chain.commands →
      decodeImg (encodeImg image) = some image ∧ ∀ x ∈ encodeImg image, x < 256) :
    deCommandChain decodeImg (serializeCommandChain encodeImg chain) =
      DeResult.ok chain := by
  obtain ⟨cmds⟩ := chain
  simp only [serializeCommandChain, deCommandChain, reqField, Json.getField,
    if_true, DeResult.bind_ok]
  rw [deCommandList_map encodeImg decodeImg cmds hwf himg]
  rfl

/-- C1 witness: a chain holding one command of every variant round-trips
through the JSON format, with a one-point PNG collaborator that encodes
the embedded reference image as the byte `[7]` and decodes it back. -/
theorem serialize_deserialize_roundtrip_witness :
    deCommandChain
      (fun bs => if bs = [7] then some (RgbImage.mk 1 1 [1, 2, 3]) else none)
      (serializeCommandChain (fun _ => [7])
        (CommandChain.mk
          [Command.waitForImage (Rect.mk 1 2 3 4) (RgbImage.mk 1 1 [1, 2, 3]) true,
            Command.sleep (Duration.mk 2 500),
            Command.shell "echo hi",
            Command.pressKeys [28, 1],
            Command.type "hello",
            Command.click (Position.mk 10 20),
            Command.mouseMove (Position.mk 30 40)])) =
      DeResult.ok
        (CommandChain.mk
          [Command.waitForImage (Rect.mk 1 2 3 4) (RgbImage.mk 1 1 [1, 2, 3]) true,
            Command.sleep (Duration.mk 2 500),
            Command.shell "echo hi",
            Command.pressKeys [28, 1],
            Command.type "hello",
            Command.click (Position.mk 10 20),
            Command.mouseMove (Position.mk 30 40)]) := by
  refine serialize_deserialize_roundtrip _ _ _ (by decide) ?_
  intro location image cl hm
  simp only [List.mem_cons, List.not_mem_nil, or_false] at hm
  simp only [Command.waitForImage.injEq, reduceCtorEq, or_false] at hm
  obtain ⟨h1, h2, h3⟩ := hm
  subst h2
  exact ⟨by decide, by decide⟩

/-! ## Behavior on undecodable image payloads -/

/-- C5 counterexample: the string `"AA=="` is valid base64 (decoding to
the single byte `0`), and a PNG collaborator that cannot decode that byte
makes `serde_img::deserialize` crash (the `.unwrap()` on
`image::load_from_memory`) instead of returning a deserialization
error. -/
theorem image_decode_crash_cex :
    deImage (fun _ => none) (Json.str "AA==") = DeResult.crash ∧
    (DeResult.crash : DeResult RgbImage) ≠ DeResult.deError := by
  exact ⟨by decide, by decide⟩

/-- C5 (amended): a malformed base64 image string fails the whole load as
a deserialization error, but base64-valid bytes that are not a decodable
image crash the process (the `.unwrap()`), which is not a deserialization
failure; in both cases no partial chain is produced, since a `DeResult`
holds either a complete value or no value at all. -/
theorem image_decode_failure_behavior (decodeImg : List Nat → Option RgbImage)
    (s : String) :
    (b64Decode s = none → deImage decodeImg (Json.str s) = .deError) ∧
    (∀ bytes, b64Decode s = some bytes → decodeImg bytes = none →
      deImage decodeImg (Json.str s) = .crash) := by
  constructor
  · intro h
    simp [deImage, h]
  · intro bytes h hd
    simp [deImage, h, hd]

/-- C5 witness: instantiating the amended claim on the base64 string
`"AA=="` and a PNG collaborator that decodes nothing. -/
theorem image_decode_failure_behavior_witness :
    deImage (fun _ => none) (Json.str "AA==") = DeResult.crash :=
  (image_decode_failure_behavior (fun _ => none) "AA==").2 [0] (by decide) rfl

/-! ## Document export (`CommandChain::to_pdf`)

`to_pdf` loads the key-code table, creates a temporary directory, renders
one markup block per command (saving each reference image to a numbered
PNG file on the way), writes the joined document, and finally invokes
`typst compile` via `.output()?`.  Only spawning `typst` can fail there:
the captured `Output` — including its exit status — is discarded, and the
function returns `Ok(())` (command.rs lines 334-340). -/

/-- One rendered block of the exported document, in source order. -/
inductive PdfBlock where
  /-- A wait-for-image heading plus the saved image file number. -/
  | waitImage (click : Bool) (location : Rect) (imgIdx : Nat)
  /-- A sleep heading with the duration. -/
  | sleepFor (d : Duration)
  /-- A bash code block with the shell command text. -/
  | shellCmd (cmd : String)
  /-- A key-press block with the resolved key names, `"<unknown key>"`
  for codes without a name (`unwrap_or` in command.rs line 312). -/
  | keysBlock (names : List String)
  /-- A text code block. -/
  | typeText (text : String)
  /-- A click heading with the position. -/
  | clickAt (p : Position)
  /-- A mouse-move heading with the position. -/
  | moveTo (p : Position)
deriving DecidableEq, Repr

/-- A failure of `CommandChain::to_pdf` before or at the `typst` step. -/
inductive PdfError where
  /-- `KeyCodes::new()?` failed. -/
  | keyCodesError
  /-- `tempfile::tempdir()?` failed. -/
  | tempdirError
  /-- `image.save(&path)?` failed. -/
  | saveError
  /-- `std::fs::write(&path, content)?` failed. -/
  | writeError
  /-- Spawning `typst` failed (`.output()?`). -/
  | typstSpawnError
deriving DecidableEq, Repr

/-- The collaborator responses available to one `to_pdf` call. -/
structure PdfEnv where
  /-- The parsed key-code table, or `none` if loading it failed. -/
  keyCodes : Option (List (String × Nat))
  /-- Whether creating the temporary directory succeeds. -/
  tempdirOk : Bool
  /-- Whether saving reference images to the directory succeeds. -/
  saveOk : Bool
  /-- Whether writing the joined document succeeds. -/
  writeOk : Bool
  /-- The `typst compile` invocation: `none` if spawning failed,
  `some status` for the compiler's exit status. -/
  typst : Option Int

/-- Render the per-command blocks of the document in order, threading the
image file counter `img_idx` (incremented only by image commands). -/
def renderBlocks (kc : List (String × Nat)) (saveOk : Bool) :
    List Command → Nat → Except PdfError (List PdfBlock)
  | [], _ => .ok []
  | Command.waitForImage location _ cl :: rest, imgIdx =>
    if saveOk then
      match renderBlocks kc saveOk rest (imgIdx + 1) with
      | .ok bs => .ok (.waitImage cl location imgIdx :: bs)
      | .error e => .error e
    else .error .saveError
  | Command.sleep duration :: rest, imgIdx =>
    match renderBlocks kc saveOk rest imgIdx with
    | .ok bs => .ok (.sleepFor duration :: bs)
    | .error e => .error e
  | Command.shell command :: rest, imgIdx =>
    match renderBlocks kc saveOk rest imgIdx with
    | .ok bs => .ok (.shellCmd command :: bs)
    | .error e => .error e
  | Command.pressKeys keys :: rest, imgIdx =>
    match renderBlocks kc saveOk rest imgIdx with
    | .ok bs =>
      .ok (.keysBlock (keys.map fun k => (reverse_lookup kc k).getD "<unknown key>") :: bs)
    | .error e => .error e
  | Command.type text :: rest, imgIdx =>
    match renderBlocks kc saveOk rest imgIdx with
    | .ok bs => .ok (.typeText text :: bs)
    | .error e => .error e
  | Command.click position :: rest, imgIdx =>
    match renderBlocks kc saveOk rest imgIdx with
    | .ok bs => .ok (.clickAt position :: bs)
    | .error e => .error e
  | Command.mouseMove position :: rest, imgIdx =>
    match renderBlocks kc saveOk rest imgIdx with
    | .ok bs => .ok (.moveTo position :: bs)
    | .error e => .error e

/-- Converts the command chain to a PDF file (`CommandChain::to_pdf`):
every earlier step propagates its failure with `?`, but the `typst`
invocation uses `.output()?`, so only a spawn failure propagates — the
compiler's exit status is never inspected and the function ends in
`Ok(())`. -/
def to_pdf (chain : CommandChain) (env : PdfEnv) : Except PdfError Unit :=
  match env.keyCodes with
  | none => .error .keyCodesError
  | some kc =>
    if env.tempdirOk then
      match renderBlocks kc env.saveOk chain.commands 0 with
      | .error e => .error e
      | .ok _ =>
        if env.writeOk then
          match env.typst with
          | none => .error .typstSpawnError
          | some _ => .ok ()
        else .error .writeError
    else .error .tempdirError

/-- C6 counterexample: `to_pdf` on the empty chain returns success even
though the `typst` compiler exited with status 1 — a compiler failure is
not surfaced to the caller. -/
theorem to_pdf_compiler_failure_cex :
    to_pdf (CommandChain.mk []) (PdfEnv.mk (some []) true true true (some 1)) =
      Except.ok () ∧
    (PdfEnv.mk (some []) true true true (some 1)).typst = some 1 ∧
    (1 : Int) ≠ 0 :=
  ⟨rfl, rfl, by decide⟩

/-- C6 (amended): `to_pdf` surfaces a failure to spawn the compiler, but
ignores the compiler's exit status entirely: when the compiler process
runs and exits with any status — zero or not — `to_pdf` returns success,
provided the earlier steps succeeded; earlier failures still propagate. -/
theorem to_pdf_compiler_status_ignored (chain : CommandChain)
    (kc : List (String × Nat)) (status : Int) :
    to_pdf chain (PdfEnv.mk (some kc) true true true (some status)) =
      (match renderBlocks kc true chain.commands 0 with
        | .ok _ => Except.ok ()
        | .error e => Except.error e) ∧
    to_pdf chain (PdfEnv.mk (some kc) true true true none) =
      (match renderBlocks kc true chain.commands 0 with
        | .ok _ => Except.error PdfError.typstSpawnError
        | .error e => Except.error e) := by
  constructor
  · cases hr : renderBlocks kc true chain.commands 0 <;> simp [to_pdf, hr]
  · cases hr : renderBlocks kc true chain.commands 0 <;> simp [to_pdf, hr]

end Emdiro
